import Mathlib

/-!
Verification development for the hpx parcel-transport / type-erased-callable /
coroutine core.

The definitions below are a shallow embedding of the three source units:
  * `src/src/runtime/parcelset/parcelport.cpp` (parcel transport:
    `send_parcel`, `send_pending_parcels`, `handle_read_completion`,
    `call_for_each`),
  * `src/hpx/runtime/threads/thread_helpers.hpp` (the type-erased callable
    container `function_base` / `basic_function`),
  * the coroutine implementation file (`coroutine_impl::operator()` and
    `reset_self_on_exit`).

Collaborators whose code is not part of this repository's sources (the
connection cache internals, the socket layer, the serialization registry
lookup) enter the model as explicit oracle inputs or are modelled from the
spec where noted.
-/

namespace HpxModel

/-! ## Parcel transport (`parcelport.cpp`) -/

/-- Destination identifier (the `boost::uint32_t prefix` obtained via
`naming::get_prefix_from_gid`). -/
abbrev Dest := Nat

/-- A parcel: destination gid plus opaque payload.  `send_parcel` only looks
at the destination prefix of a parcel; the payload is opaque here. -/
structure Parcel where
  destPfx : Dest
  payload : Nat
deriving DecidableEq, Repr

/-- A write completion handler (`write_handler_type`), identified opaquely;
invoking one is recorded as an event rather than executed. -/
abbrev Handler := Nat

/-- An outbound connection (`parcelport_connection_ptr`), identified
opaquely. -/
structure Connection where
  connId : Nat
deriving DecidableEq, Repr

/-- `boost::system::error_code` values distinguished by the transport:
success (falsy error code), `try_again` (the initial value of the `error`
variable in `send_parcel`), `operation_aborted`, `eof`, and any other
error. -/
inductive ECode where
  | success
  | tryAgain
  | operationAborted
  | eofE
  | other (code : Nat)
deriving DecidableEq, Repr

/-- `call_for_each::operator()(e, bytes_written)`: the `BOOST_FOREACH` loop
over the stored handler vector `fv`, invoking each handler with the write's
error code and byte count.  The model returns the list of invocations
performed, in order. -/
def callForEach : List Handler → ECode → Nat → List (Handler × ECode × Nat)
  | [], _, _ => []
  | f :: fs, e, bytesWritten =>
      (f, e, bytesWritten) :: callForEach fs e bytesWritten

/-- The `pending_parcels_` map: destination prefix to the pair of the parcel
vector and the handler vector.  `std::map::operator[]` default-constructs an
absent entry, so a total function with default `([], [])` is the faithful
view. -/
structure PPState where
  queue : Dest → List Parcel × List Handler

/-- The enqueue step of `send_parcel` (lines 190–194): under one
`spinlock::scoped_lock`, `push_back` the parcel and the handler onto the two
vectors for the destination. -/
def enqueuePending (s : PPState) (d : Dest) (p : Parcel) (f : Handler) : PPState :=
  ⟨fun d2 =>
    if d2 = d then ((s.queue d).1 ++ [p], (s.queue d).2 ++ [f])
    else s.queue d2⟩

/-- The drain step of `send_parcel` (lines 276–280): under one
`spinlock::scoped_lock`, `std::swap` both vectors for the destination with
empty local vectors.  Returns the drained pair and the new map state. -/
def drainPending (s : PPState) (d : Dest) :
    (List Parcel × List Handler) × PPState :=
  (s.queue d,
   ⟨fun d2 => if d2 = d then ([], []) else s.queue d2⟩)

/-- The inner endpoint sweep of `send_parcel`'s connect loop (lines
229–241): for each resolved endpoint, close the socket and call
`connect(*it, error)`; break out as soon as `error` is falsy.  The `error`
variable retains its previous value when the endpoint list is exhausted. -/
def runEndpoints (err : ECode) : List ECode → ECode
  | [] => err
  | e :: es => if e = ECode.success then ECode.success else runEndpoints e es

/-- The outer retry loop of `send_parcel` (lines 226–254): up to
`HPX_MAX_NETWORK_RETRIES` sweeps; break as soon as a sweep succeeds, else
sleep and retry.  `sweeps` gives, per retry iteration, the error code each
endpoint's `connect` would produce. -/
def runRetries (err : ECode) : List (List ECode) → ECode
  | [] => err
  | sw :: rest =>
      let e := runEndpoints err sw
      if e = ECode.success then ECode.success else runRetries e rest

/-- Oracle inputs for one `send_parcel` call: the results the connection
cache and the socket layer (collaborators whose code is outside this
repository) would return. -/
structure SendEnv where
  /-- result of `connection_cache_.get(prefix)` at line 187 -/
  cacheGetResult : Option Connection
  /-- result of `connection_cache_.full(prefix)` at line 213 -/
  cacheFull : Bool
  /-- the fresh `parcelport_connection` constructed at line 220 -/
  newConn : Connection
  /-- per-sweep, per-endpoint `connect` results for the retry loop -/
  connectSweeps : List (List ECode)

/-- Observable actions of `send_parcel` / `send_pending_parcels`, in
program order. -/
inductive Event where
  | cacheGet (d : Dest)
  | enqueue (d : Dest) (p : Parcel) (f : Handler)
  | cacheFullCheck (d : Dest)
  | closeSocket
  | throwNetworkError (d : Dest) (lastError : ECode)
  | drainSwap (d : Dest)
  | asyncWrite (conn : Connection)
  | cacheAdd (d : Dest) (conn : Connection)
deriving DecidableEq, Repr

/-- How one `send_parcel` call ends. -/
inductive SendOutcome where
  /-- drained a non-empty batch and issued one `async_write`; the write's
  completion callback is `call_for_each(handlers)` followed by the
  `send_pending_parcels_trampoline` -/
  | sentBatch (conn : Connection) (parcels : List Parcel) (handlers : List Handler)
  /-- drained batch was empty: connection re-added to the cache unused -/
  | returnedToCache (conn : Connection)
  /-- no cached connection and `cache.full(prefix)`: early return at line 215 -/
  | queuedOnly
  /-- all connect sweeps failed: socket closed, `HPX_THROW_EXCEPTION(
  network_error, "parcelport::send_parcel", ...)` with the last socket
  error (line 255–267) -/
  | connectFailed (lastError : ECode)
deriving DecidableEq, Repr

/-- Steps 5–6 shared by `send_parcel` and `send_pending_parcels`
(lines 274–300 / 315–348): swap out both pending vectors under one lock;
if both drained vectors are non-empty, set the parcels on the connection
and issue one batched `async_write`, else re-add the connection to the
cache. -/
def drainAndWrite (s : PPState) (d : Dest) (conn : Connection) :
    PPState × SendOutcome × List Event :=
  let drained := (drainPending s d).1
  let s2 := (drainPending s d).2
  if drained.1 ≠ [] ∧ drained.2 ≠ [] then
    (s2, SendOutcome.sentBatch conn drained.1 drained.2,
     [Event.drainSwap d, Event.asyncWrite conn])
  else
    (s2, SendOutcome.returnedToCache conn,
     [Event.drainSwap d, Event.cacheAdd d conn])

/-- `parcelport::send_parcel(p, addr, f)` (lines 180–301), with the
cache/socket collaborators supplied by `env`.  Returns the new pending map,
the outcome, and the ordered event trace. -/
def sendParcel (env : SendEnv) (s : PPState) (p : Parcel) (f : Handler) :
    PPState × SendOutcome × List Event :=
  let d := p.destPfx
  -- line 187: parcelport_connection_ptr client_connection(connection_cache_.get(prefix));
  let clientConnection := env.cacheGetResult
  -- lines 190–194: enqueue the incoming parcel under the lock
  let s1 := enqueuePending s d p f
  let ev0 := [Event.cacheGet d, Event.enqueue d p f]
  match clientConnection with
  | none =>
      -- line 213: if (connection_cache_.full(prefix)) return;
      if env.cacheFull then
        (s1, SendOutcome.queuedOnly, ev0 ++ [Event.cacheFullCheck d])
      else
        -- lines 225–254: connect to the target locality, retry if needed
        let err := runRetries ECode.tryAgain env.connectSweeps
        if err = ECode.success then
          let rest := drainAndWrite s1 d env.newConn
          (rest.1, rest.2.1,
           ev0 ++ [Event.cacheFullCheck d] ++ rest.2.2)
        else
          -- lines 255–267: close the socket and throw network_error
          (s1, SendOutcome.connectFailed err,
           ev0 ++ [Event.cacheFullCheck d, Event.closeSocket,
                   Event.throwNetworkError d err])
  | some conn =>
      let rest := drainAndWrite s1 d conn
      (rest.1, rest.2.1, ev0 ++ rest.2.2)

/-- How one `send_pending_parcels` call ends. -/
inductive DrainOutcome where
  /-- `connection_cache_.get(prefix)` returned nothing: immediate return at
  line 320, before the pending map is touched -/
  | noIdleConnection
  /-- drained a non-empty batch and issued one `async_write` (whose
  completion schedules the trampoline again) -/
  | wrote (conn : Connection) (parcels : List Parcel) (handlers : List Handler)
  /-- drained batch was empty: connection re-added to the cache -/
  | readded (conn : Connection)
deriving DecidableEq, Repr

/-- `parcelport::send_pending_parcels(prefix)` (lines 312–349), the target
of the drain trampoline.  `cacheGetResult` is the oracle answer of
`connection_cache_.get(prefix)` at line 317. -/
def sendPendingParcels (cacheGetResult : Option Connection) (s : PPState)
    (d : Dest) : PPState × DrainOutcome :=
  match cacheGetResult with
  | none => (s, DrainOutcome.noIdleConnection)
  | some conn =>
      -- lines 322–331: find the entry and swap both vectors under one lock
      let drained := (drainPending s d).1
      let s2 := (drainPending s d).2
      if drained.1 ≠ [] ∧ drained.2 ≠ [] then
        (s2, DrainOutcome.wrote conn drained.1 drained.2)
      else
        (s2, DrainOutcome.readded conn)

/-- The operations that touch the pending-parcel map, for stating its
invariant over arbitrary interleavings. -/
inductive QOp where
  | send (env : SendEnv) (p : Parcel) (f : Handler)
  | drain (cacheGetResult : Option Connection) (d : Dest)

/-- Apply one operation to the pending map. -/
def applyQOp (s : PPState) : QOp → PPState
  | QOp.send env p f => (sendParcel env s p f).1
  | QOp.drain cg d => (sendPendingParcels cg s d).1

/-- The map with no pending parcels (initial state of `pending_parcels_`). -/
def initPP : PPState := ⟨fun _ => ([], [])⟩

/-- Equal-length invariant of the pending map: for every destination the
parcel vector and the handler vector have the same length. -/
def eqLen (s : PPState) : Prop :=
  ∀ d : Dest, (s.queue d).1.length = (s.queue d).2.length

/-- `parcelport::handle_read_completion` result: whether the error branch
logged, and whether the telemetry data point was completed and pushed onto
`parcels_received_`. -/
structure ReadCompletionResult where
  loggedError : Bool
  telemetryRecorded : Bool
deriving DecidableEq, Repr

/-- `parcelport::handle_read_completion(e, c)` (lines 162–177): if `e` is
truthy and is neither `operation_aborted` nor `eof`, log the error;
otherwise complete the receive data point and push it back. -/
def handleReadCompletion (e : ECode) : ReadCompletionResult :=
  if e ≠ ECode.success ∧ e ≠ ECode.operationAborted ∧ e ≠ ECode.eofE then
    { loggedError := true, telemetryRecorded := false }
  else
    { loggedError := false, telemetryRecorded := true }

/-- An operation of `send_parcel` that blocks the calling thread on network
state: a synchronous `socket().connect(*it, error)` call (line 238), or the
`boost::this_thread::sleep(... HPX_NETWORK_RETRIES_SLEEP)` performed after
a failed sweep (lines 247–248). -/
inductive BlockOp where
  | syncConnect
  | sleepRetry
deriving DecidableEq, Repr

/-- The blocking operations of one endpoint sweep (lines 229–241): one
synchronous `connect` per endpoint, stopping after the first endpoint whose
`connect` left `error` falsy. -/
def sweepBlockingOps : List ECode → List BlockOp
  | [] => []
  | e :: es =>
      BlockOp.syncConnect ::
        (if e = ECode.success then [] else sweepBlockingOps es)

/-- The blocking operations of the whole connect retry loop of `send_parcel`
(lines 226–254): run a sweep; if it left `error` falsy, break out; otherwise
sleep for `HPX_NETWORK_RETRIES_SLEEP` and run the next sweep.  The `error`
threading matches `runRetries`. -/
def connectLoopBlockingOps (err : ECode) : List (List ECode) → List BlockOp
  | [] => []
  | sw :: rest =>
      sweepBlockingOps sw ++
        (if runEndpoints err sw = ECode.success then []
         else BlockOp.sleepRetry :: connectLoopBlockingOps (runEndpoints err sw) rest)

/-- The blocking-on-network profile of one `send_parcel` call (lines
180–301): with a cached connection (line 187 hit) or a full cache (early
return at line 215) the call performs no blocking network operation; only
the path that creates a new connection runs the synchronous connect loop
with its retry sleeps (lines 226–254). -/
def sendParcelBlockingOps (env : SendEnv) : List BlockOp :=
  match env.cacheGetResult with
  | some _ => []
  | none =>
      if env.cacheFull then []
      else connectLoopBlockingOps ECode.tryAgain env.connectSweeps

/-! ## Type-erased callable container (`thread_helpers.hpp`,
`function_base` / `basic_function`) -/

/-- A dispatch-table pointer (`vtable const* vptr`).  `nullPtr` is a null
pointer value — the type admits it so that "never null" is a real claim; the
code is supposed never to install it.  `emptyVt` is the fixed empty-function
vtable returned by `get_empty_function_vtable`, shared by all instances.
`typeVt tyId fits` is `get_vtable<T>` for the concrete type with identity
`tyId`; `fits` records whether `T`'s size and alignment fit the inline
`function_storage_size` buffer (a property of the type, hence part of its
vtable identity). -/
inductive VTablePtr where
  | nullPtr
  | emptyVt
  | typeVt (tyId : Nat) (fits : Bool)
deriving DecidableEq, Repr

/-- An argument to `assign`: the identity of its decayed type, whether the
type fits the inline buffer, and whether `detail::is_empty_function(f)`
holds (a null function/member pointer). -/
structure CallableArg where
  tyId : Nat
  fits : Bool
  isNullFnPtr : Bool
deriving DecidableEq, Repr

/-- `get_vtable<decay_t<F>>()` for an argument. -/
def argVt (a : CallableArg) : VTablePtr := VTablePtr.typeVt a.tyId a.fits

/-- The state of one `function_base` container.  `object` is the payload
pointer (`none` = `nullptr`); `inlineAddr` is the (fixed, per-container)
address of the inline `storage` buffer, so `object = some inlineAddr` means
the payload lives inline.  `allocCount` counts heap allocations performed so
far and `nextHeap` supplies fresh heap addresses, letting "no new
allocation" and pointer identity be stated. -/
structure FB where
  vptr : VTablePtr
  object : Option Nat
  inlineAddr : Nat
  allocCount : Nat
  nextHeap : Nat
deriving DecidableEq, Repr

/-- The default constructor (lines 159–163): empty-function vtable sentinel,
null object pointer. -/
def initFB (inlineAddr : Nat) : FB :=
  { vptr := VTablePtr.emptyVt, object := none, inlineAddr := inlineAddr,
    allocCount := 0, nextHeap := inlineAddr + 1 }

/-- `vtable::allocate<T>(storage, function_storage_size)`: the inline buffer
if `T` fits, else a fresh heap block.  Returns the buffer address and the
updated allocation bookkeeping. -/
def allocateFB (s : FB) (fits : Bool) : Nat × FB :=
  if fits then (s.inlineAddr, s)
  else (s.nextHeap,
        { s with allocCount := s.allocCount + 1, nextHeap := s.nextHeap + 1 })

/-- `function_base::destroy()` (lines 267–275): deallocate the payload if
any.  Destruction frees storage but performs no allocation, so the
bookkeeping fields are untouched. -/
def destroyFB (s : FB) : FB := s

/-- `function_base::reset()` (lines 277–282): destroy, then install the
empty-function vtable sentinel and null the object pointer. -/
def resetFB (s : FB) : FB :=
  let s1 := destroyFB s
  { s1 with vptr := VTablePtr.emptyVt, object := none }

/-- `function_base::assign(F&& f)` (lines 237–265): a null function/member
pointer is normalized to `reset()`; otherwise, when the new value's vtable
equals the stored one, the old payload is destroyed and the new one is
constructed in the very same buffer (`buffer = object`); otherwise the old
payload is destroyed and a buffer is picked by `allocate` (inline if the new
type fits, else heap) before constructing. -/
def assignFB (s : FB) (f : CallableArg) : FB :=
  if ¬f.isNullFnPtr then
    let fVptr := argVt f
    if s.vptr = fVptr then
      -- reuse object storage: buffer = object; destruct; placement-new
      s
    else
      let s1 := destroyFB s
      let alloc := allocateFB { s1 with vptr := fVptr } f.fits
      { alloc.2 with object := some alloc.1 }
  else
    resetFB s

/-- The copy constructor (lines 165–175): take the source's vtable; if the
source is non-empty, `vptr->copy` clones the payload into this container's
inline buffer when the type fits, else into a fresh heap block.  The new
container's inline buffer sits at `inlineAddr2`. -/
def copyCtorFB (s : FB) (inlineAddr2 : Nat) : FB :=
  let base : FB :=
    { vptr := s.vptr, object := s.object, inlineAddr := inlineAddr2,
      allocCount := 0, nextHeap := inlineAddr2 + 1 }
  match s.object with
  | none => base
  | some _ =>
      match s.vptr with
      | VTablePtr.typeVt _ fits =>
          let alloc := allocateFB base fits
          { alloc.2 with object := some alloc.1 }
      | _ =>
          let alloc := allocateFB base true
          { alloc.2 with object := some alloc.1 }

/-- The move constructor (lines 177–188): steal vtable and object pointer;
when the payload was inline in the source, `memcpy` the storage and re-point
`object` at this container's own buffer; leave the source with the empty
sentinel and a null object. Returns (new container, moved-from source). -/
def moveCtorFB (s : FB) (inlineAddr2 : Nat) : FB × FB :=
  let movedTo : FB :=
    { vptr := s.vptr,
      object := if s.object = some s.inlineAddr then some inlineAddr2
                else s.object,
      inlineAddr := inlineAddr2, allocCount := 0, nextHeap := inlineAddr2 + 1 }
  let movedFrom : FB :=
    { s with vptr := VTablePtr.emptyVt, object := none }
  (movedTo, movedFrom)

/-- The copy-assignment operator (lines 195–220): when the vtables agree and
this container is non-empty, clone the source payload into the existing
buffer (`object` unchanged); otherwise destroy, adopt the source's vtable
and clone into inline or heap storage as its type dictates (or null the
object when the source is empty). -/
def copyAssignFB (s other : FB) : FB :=
  if s.vptr = other.vptr then
    -- reuse object storage when non-empty (self-assignment aside, the
    -- object pointer is unchanged either way)
    s
  else
    let s1 := destroyFB s
    match other.object with
    | none => { s1 with vptr := other.vptr, object := none }
    | some _ =>
        match other.vptr with
        | VTablePtr.typeVt _ fits =>
            let alloc := allocateFB { s1 with vptr := other.vptr } fits
            { alloc.2 with object := some alloc.1 }
        | _ =>
            let alloc := allocateFB { s1 with vptr := other.vptr } true
            { alloc.2 with object := some alloc.1 }

/-- `function_base::swap` (lines 284–293): exchange vtable pointers, object
pointers and storage bytes, then re-point any inline payload at its new
home buffer. -/
def swapFB (s t : FB) : FB × FB :=
  let sObj := if t.object = some t.inlineAddr then some s.inlineAddr
              else t.object
  let tObj := if s.object = some s.inlineAddr then some t.inlineAddr
              else s.object
  ({ s with vptr := t.vptr, object := sObj },
   { t with vptr := s.vptr, object := tObj })

/-- The move-assignment operator (lines 222–230): swap with the source, then
reset the source.  Returns (assigned-to, moved-from source). -/
def moveAssignFB (s other : FB) : FB × FB :=
  let sw := swapFB s other
  (sw.1, resetFB sw.2)

/-- `function_base::empty()` (line 295–298). -/
def emptyFB (s : FB) : Bool := s.object = none

/-- A `serializable_function_vtable` entry: the registered type name, the
plain vtable of the type, and whether the type fits the inline buffer
(consulted by `load_object` when reconstructing). -/
structure SerializableVt where
  name : String
  vptr : VTablePtr
  fits : Bool
deriving DecidableEq, Repr

/-- Modelled from the spec: `detail::get_serializable_vtable<vtable>(name)`
— the process-wide type→dispatch-table registry lookup used by
`basic_function::load`.  Its implementation is not among this repository's
sources; per the spec it looks the name up and fails with
`UnknownCallableType` when the name is not registered. -/
def registryLookup (reg : List (String × SerializableVt)) (name : String) :
    Option SerializableVt :=
  match reg with
  | [] => none
  | (k, v) :: rest => if k = name then some v else registryLookup rest name

/-- What `basic_function::load` reads from the input archive: the empty
flag, then (when non-empty) the registered type name. -/
structure InArchive where
  isEmptyFlag : Bool
  name : String
deriving DecidableEq, Repr

/-- The error raised when deserialization meets an unregistered type name. -/
inductive LoadError where
  | unknownCallableType (name : String)
deriving DecidableEq, Repr

/-- `basic_function::load(ar, version)` (lines 442–458): reset the
container first; read the empty flag; when non-empty, read the type name
and look it up in the registry — failure leaves the container as reset;
on success install the found vtable and reconstruct the payload into inline
or heap storage via `load_object`.  Returns the container state after the
call together with the error, if any. -/
def loadFB (reg : List (String × SerializableVt)) (s : FB) (ar : InArchive) :
    FB × Option LoadError :=
  let s0 := resetFB s
  if ar.isEmptyFlag then (s0, none)
  else
    match registryLookup reg ar.name with
    | none => (s0, some (LoadError.unknownCallableType ar.name))
    | some sv =>
        let alloc := allocateFB { s0 with vptr := sv.vptr } sv.fits
        ({ alloc.2 with object := some alloc.1 }, none)

/-- The container-state invariant of the claim: the dispatch-table pointer
is never the null pointer, and in the empty state (`object = none`, which is
exactly `empty()`) it is the fixed empty-function sentinel. -/
def fbInv (s : FB) : Prop :=
  s.vptr ≠ VTablePtr.nullPtr ∧ (s.object = none → s.vptr = VTablePtr.emptyVt)

instance (s : FB) : Decidable (fbInv s) := by
  unfold fbInv; infer_instance

/-! ## Cooperative execution context (`coroutine_impl::operator()`) -/

/-- The thread-local "current context" marker
(`coroutine_self::get_self()` / `set_self`): a possibly-null pointer to a
`coroutine_self`, identified by address. -/
abbrev SelfPtr := Option Nat

/-- `super_type::context_exit_status`: how the context's run loop iteration
exited. -/
inductive ExitStatus where
  | exitedReturn
  | exitedAbnormally
deriving DecidableEq, Repr

/-- The value a finished work item yields: `(thread_state_enum,
thread_id)`; only `terminated` is expected by the assertion at line 93. -/
structure FnResult where
  stateEnum : Nat
  threadId : Nat
deriving DecidableEq, Repr

/-- `reset_self_on_exit` constructor (lines 49–54): `set_self(val)` and
remember `old_val`.  Returns the new thread-local marker and the saved
`old_self` field. -/
def resetSelfEnter (val : Nat) (oldVal : SelfPtr) : SelfPtr × SelfPtr :=
  (some val, oldVal)

/-- `reset_self_on_exit` destructor (lines 56–59): `set_self(old_self)`. -/
def resetSelfExit (saved : SelfPtr) : SelfPtr := saved

/-- What one iteration of the `do` loop in `coroutine_impl::operator()`
(lines 83–106) delivers: the thread-local marker after the iteration, the
exit status and captured exception payload passed to `do_return`, and the
result passed to `bind_result` when the work item returned normally. -/
structure IterOutcome where
  tlsAfter : SelfPtr
  status : ExitStatus
  tinfo : Option Nat
  boundResult : Option FnResult
deriving DecidableEq, Repr

/-- One iteration of `coroutine_impl::operator()` (lines 83–106): read the
old thread-local self, install a fresh `coroutine_self` for this coroutine
via `reset_self_on_exit`, run the bound work item `m_fun` (which observes
the installed marker), restore the marker when the inner block exits —
normally or by stack unwinding — then either `bind_result` the value or
capture the exception into `tinfo` with status `ctx_exited_abnormally`,
and `do_return(status, tinfo)`.  `fn` maps the visible thread-local marker
to the work item's behaviour: a value or a thrown exception payload. -/
def coroutineIteration (tls : SelfPtr) (selfAddr : Nat)
    (fn : SelfPtr → Except Nat FnResult) : IterOutcome :=
  let oldSelf := tls
  let enter := resetSelfEnter selfAddr oldSelf
  match fn enter.1 with
  | Except.ok r =>
      let tls2 := resetSelfExit enter.2
      { tlsAfter := tls2, status := ExitStatus.exitedReturn,
        tinfo := none, boundResult := some r }
  | Except.error e =>
      -- the guard's destructor runs during unwinding, before the catch
      let tls2 := resetSelfExit enter.2
      { tlsAfter := tls2, status := ExitStatus.exitedAbnormally,
        tinfo := some e, boundResult := none }

/-! ## Concrete inputs used by witnesses and counterexamples -/

/-- A sample parcel for destination prefix 0. -/
def pw : Parcel := ⟨0, 1⟩

/-- Oracle where the cache is empty and not full, and every connect attempt
on both retry sweeps fails. -/
def env0 : SendEnv :=
  { cacheGetResult := none, cacheFull := false, newConn := ⟨9⟩,
    connectSweeps := [[ECode.other 1], [ECode.other 2]] }

/-- Oracle where the cache immediately yields connection 5. -/
def envC : SendEnv :=
  { cacheGetResult := some ⟨5⟩, cacheFull := false, newConn := ⟨9⟩,
    connectSweeps := [] }

/-- Oracle where the cache has no idle connection and is full for the
destination. -/
def envF : SendEnv :=
  { cacheGetResult := none, cacheFull := true, newConn := ⟨9⟩,
    connectSweeps := [] }

/-- A container that was assigned a non-null function pointer of decayed
type 7 (which fits the inline buffer). -/
def cexFB : FB := assignFB (initFB 100) ⟨7, true, false⟩

/-- A null function pointer of the same decayed type 7. -/
def cexArg : CallableArg := ⟨7, true, true⟩

/-- A work item that throws, with exception payload 13. -/
def throwingFn : SelfPtr → Except Nat FnResult := fun _ => Except.error 13

/-- A registry holding exactly one registered serializable type. -/
def regW : List (String × SerializableVt) :=
  [("registered_ty", ⟨"registered_ty", VTablePtr.typeVt 3 true, true⟩)]

/-- An archive announcing a non-empty payload of an unregistered name. -/
def arW : InArchive := ⟨false, "missing_ty"⟩

/-- Well-formedness of the registry: registered dispatch tables are real
vtables, never the null pointer (they are addresses of static
`serializable_function_vtable` instances). -/
def regWellFormed (reg : List (String × SerializableVt)) : Prop :=
  ∀ kv ∈ reg, kv.2.vptr ≠ VTablePtr.nullPtr

/-! ## Helper lemmas -/

theorem runEndpoints_all_fail (err : ECode) (sw : List ECode)
    (h1 : err ≠ ECode.success) (h2 : ∀ e ∈ sw, e ≠ ECode.success) :
    runEndpoints err sw ≠ ECode.success := by
  induction sw generalizing err with
  | nil => simpa [runEndpoints] using h1
  | cons e es ih =>
      have he : e ≠ ECode.success := h2 e (by simp)
      simp only [runEndpoints, if_neg he]
      exact ih e he (fun x hx => h2 x (by simp [hx]))

theorem runRetries_all_fail (err : ECode) (sweeps : List (List ECode))
    (h1 : err ≠ ECode.success)
    (h2 : ∀ sw ∈ sweeps, ∀ e ∈ sw, e ≠ ECode.success) :
    runRetries err sweeps ≠ ECode.success := by
  induction sweeps generalizing err with
  | nil => simpa [runRetries] using h1
  | cons sw rest ih =>
      have hsw : runEndpoints err sw ≠ ECode.success :=
        runEndpoints_all_fail err sw h1 (h2 sw (by simp))
      simp only [runRetries, if_neg hsw]
      exact ih _ hsw (fun x hx => h2 x (by simp [hx]))

/-! ## Claims -/

/-- C1: when `send_parcel` finds no cached connection, the cache is not
full, and every connect attempt of every retry sweep fails, the call closes
the new connection's socket and throws `network_error` (connect phase)
carrying the last socket error — and the pending-parcel queue is exactly
the queue after the unconditional enqueue: the pair of this very call is
appended for the destination, every previously queued pair is still there,
and other destinations are untouched. -/
theorem sendParcel_connect_all_fail_queue_unchanged
    (env : SendEnv) (s : PPState) (p : Parcel) (f : Handler)
    (hget : env.cacheGetResult = none) (hfull : env.cacheFull = false)
    (hfail : ∀ sw ∈ env.connectSweeps, ∀ e ∈ sw, e ≠ ECode.success) :
    (sendParcel env s p f).2.1 =
      SendOutcome.connectFailed (runRetries ECode.tryAgain env.connectSweeps) ∧
    (sendParcel env s p f).2.2 =
      [Event.cacheGet p.destPfx, Event.enqueue p.destPfx p f,
       Event.cacheFullCheck p.destPfx, Event.closeSocket,
       Event.throwNetworkError p.destPfx
         (runRetries ECode.tryAgain env.connectSweeps)] ∧
    (sendParcel env s p f).1 = enqueuePending s p.destPfx p f ∧
    ((sendParcel env s p f).1.queue p.destPfx).1 = (s.queue p.destPfx).1 ++ [p] ∧
    ((sendParcel env s p f).1.queue p.destPfx).2 = (s.queue p.destPfx).2 ++ [f] ∧
    (∀ d, d ≠ p.destPfx → (sendParcel env s p f).1.queue d = s.queue d) := by
  have herr : runRetries ECode.tryAgain env.connectSweeps ≠ ECode.success :=
    runRetries_all_fail _ _ (by decide) hfail
  simp only [sendParcel, hget, hfull, Bool.false_eq_true, if_false, if_neg herr]
  refine ⟨trivial, rfl, trivial, ?_, ?_, ?_⟩
  · simp [enqueuePending]
  · simp [enqueuePending]
  · intro d hd
    simp [enqueuePending, hd]

/-- Witness for C1 at the concrete oracle `env0`. -/
theorem sendParcel_connect_all_fail_queue_unchanged_witness :
    env0.cacheGetResult = none ∧ env0.cacheFull = false ∧
    (∀ sw ∈ env0.connectSweeps, ∀ e ∈ sw, e ≠ ECode.success) ∧
    (sendParcel env0 initPP pw 7).2.1 =
      SendOutcome.connectFailed (runRetries ECode.tryAgain env0.connectSweeps) ∧
    ((sendParcel env0 initPP pw 7).1.queue pw.destPfx).1 = [pw] ∧
    ((sendParcel env0 initPP pw 7).1.queue pw.destPfx).2 = [7] := by
  have h := sendParcel_connect_all_fail_queue_unchanged env0 initPP pw 7
    rfl rfl (by decide)
  refine ⟨rfl, rfl, by decide, h.1, ?_, ?_⟩
  · simpa [initPP] using h.2.2.2.1
  · simpa [initPP] using h.2.2.2.2.1

/-- C8 (counterexample): a concrete `send_parcel` call refuting both failing
conjuncts of the claim.  First, in the call's trace the
`connection_cache_.get` lookup sits at position 0 and the enqueue of the
(parcel, handler) pair at position 1 — the enqueue does NOT happen before
the cache lookup.  Second, the call does block on network state: on the
no-cached-connection, not-full path it performs synchronous `connect`
attempts with a retry sleep after each failed sweep (here two connects and
two sleeps), so its blocking profile is non-empty. -/
theorem sendParcel_enqueue_order_counterexample :
    ((sendParcel env0 initPP pw 7).2.2.indexOf (Event.cacheGet pw.destPfx) = 0 ∧
     (sendParcel env0 initPP pw 7).2.2.indexOf (Event.enqueue pw.destPfx pw 7) = 1 ∧
     ¬ ((sendParcel env0 initPP pw 7).2.2.indexOf (Event.enqueue pw.destPfx pw 7) <
        (sendParcel env0 initPP pw 7).2.2.indexOf (Event.cacheGet pw.destPfx))) ∧
    sendParcelBlockingOps env0 =
      [BlockOp.syncConnect, BlockOp.sleepRetry,
       BlockOp.syncConnect, BlockOp.sleepRetry] ∧
    sendParcelBlockingOps env0 ≠ [] := by
  decide

/-- C8 (amended): every `send_parcel` call unconditionally enqueues the
(parcel, handler) pair, but the connection-cache lookup happens before the
enqueue: on every path the trace starts with the cache lookup immediately
followed by the enqueue.  And the call never blocks on network state except
on the path that opens a new connection: with a cached connection or a full
cache its blocking profile is empty, while on the new-connection path it is
exactly the synchronous connect loop's connects and retry sleeps. -/
theorem sendParcel_cacheGet_then_enqueue
    (env : SendEnv) (s : PPState) (p : Parcel) (f : Handler) :
    (∃ rest, (sendParcel env s p f).2.2 =
      Event.cacheGet p.destPfx :: Event.enqueue p.destPfx p f :: rest) ∧
    (∀ conn, env.cacheGetResult = some conn → sendParcelBlockingOps env = []) ∧
    (env.cacheGetResult = none → env.cacheFull = true →
      sendParcelBlockingOps env = []) ∧
    (env.cacheGetResult = none → env.cacheFull = false →
      sendParcelBlockingOps env =
        connectLoopBlockingOps ECode.tryAgain env.connectSweeps) := by
  refine ⟨?_, ?_, ?_, ?_⟩
  · unfold sendParcel
    cases env.cacheGetResult with
    | none =>
        cases hfull : env.cacheFull with
        | true => exact ⟨_, rfl⟩
        | false =>
            by_cases he : runRetries ECode.tryAgain env.connectSweeps = ECode.success
            · simp only [if_pos he, Bool.false_eq_true, if_false]
              exact ⟨_, rfl⟩
            · simp only [if_neg he, Bool.false_eq_true, if_false]
              exact ⟨_, rfl⟩
    | some conn => exact ⟨_, rfl⟩
  · intro conn h
    simp [sendParcelBlockingOps, h]
  · intro h1 h2
    simp [sendParcelBlockingOps, h1, h2]
  · intro h1 h2
    simp [sendParcelBlockingOps, h1, h2]

/-- Witness for C8 (amended) at the three concrete oracles: cached
connection (`envC`), full cache (`envF`), and the new-connection path
(`env0`). -/
theorem sendParcel_cacheGet_then_enqueue_witness :
    envC.cacheGetResult = some ⟨5⟩ ∧
    sendParcelBlockingOps envC = [] ∧
    envF.cacheGetResult = none ∧ envF.cacheFull = true ∧
    sendParcelBlockingOps envF = [] ∧
    env0.cacheGetResult = none ∧ env0.cacheFull = false ∧
    sendParcelBlockingOps env0 =
      connectLoopBlockingOps ECode.tryAgain env0.connectSweeps := by
  have hC := sendParcel_cacheGet_then_enqueue envC initPP pw 7
  have hF := sendParcel_cacheGet_then_enqueue envF initPP pw 7
  have h0 := sendParcel_cacheGet_then_enqueue env0 initPP pw 7
  exact ⟨rfl, hC.2.1 ⟨5⟩ rfl, rfl, rfl, hF.2.2.1 rfl rfl, rfl, rfl,
    h0.2.2.2 rfl rfl⟩

/-- C10: when the drain-trampoline target `send_pending_parcels` obtains no
idle connection from the cache, it returns immediately: the pending map of
every destination is unmodified and no write or further trampoline is
issued. -/
theorem sendPendingParcels_no_connection_noop
    (cg : Option Connection) (s : PPState) (d : Dest) (h : cg = none) :
    (sendPendingParcels cg s d).1 = s ∧
    (∀ d2, ((sendPendingParcels cg s d).1.queue d2) = s.queue d2) ∧
    (sendPendingParcels cg s d).2 = DrainOutcome.noIdleConnection := by
  subst h
  exact ⟨rfl, fun _ => rfl, rfl⟩

/-- Witness for C10 at a concrete empty-cache drain call. -/
theorem sendPendingParcels_no_connection_noop_witness :
    (sendPendingParcels none initPP 3).1 = initPP ∧
    (sendPendingParcels none initPP 3).2 = DrainOutcome.noIdleConnection := by
  have h := sendPendingParcels_no_connection_noop none initPP 3 rfl
  exact ⟨h.1, h.2.2⟩

theorem eqLen_enqueue (s : PPState) (d : Dest) (p : Parcel) (f : Handler)
    (h : eqLen s) : eqLen (enqueuePending s d p f) := by
  intro d2
  unfold enqueuePending
  by_cases hd : d2 = d
  · subst hd; simp [h d2]
  · simp [hd, h d2]

theorem eqLen_drain (s : PPState) (d : Dest) (h : eqLen s) :
    eqLen (drainPending s d).2 := by
  intro d2
  unfold drainPending
  by_cases hd : d2 = d
  · subst hd; simp
  · simp [hd, h d2]

theorem drainAndWrite_fst (s : PPState) (d : Dest) (conn : Connection) :
    (drainAndWrite s d conn).1 = (drainPending s d).2 := by
  unfold drainAndWrite
  dsimp only
  split <;> rfl

theorem sendPendingParcels_fst (cg : Option Connection) (s : PPState)
    (d : Dest) :
    (sendPendingParcels cg s d).1 = s ∨
    (sendPendingParcels cg s d).1 = (drainPending s d).2 := by
  cases cg with
  | none => exact Or.inl rfl
  | some conn =>
      right
      unfold sendPendingParcels
      dsimp only
      split <;> rfl

theorem sendParcel_fst (env : SendEnv) (s : PPState) (p : Parcel)
    (f : Handler) :
    (sendParcel env s p f).1 = enqueuePending s p.destPfx p f ∨
    (sendParcel env s p f).1 =
      (drainPending (enqueuePending s p.destPfx p f) p.destPfx).2 := by
  unfold sendParcel
  cases env.cacheGetResult with
  | none =>
      cases hfull : env.cacheFull with
      | true => exact Or.inl rfl
      | false =>
          by_cases he : runRetries ECode.tryAgain env.connectSweeps = ECode.success
          · simp only [if_pos he, Bool.false_eq_true, if_false]
            exact Or.inr (drainAndWrite_fst _ _ _)
          · simp only [if_neg he, Bool.false_eq_true, if_false]
            exact Or.inl trivial
  | some conn =>
      exact Or.inr (drainAndWrite_fst _ _ _)

theorem eqLen_sendParcel (env : SendEnv) (s : PPState) (p : Parcel)
    (f : Handler) (h : eqLen s) : eqLen (sendParcel env s p f).1 := by
  rcases sendParcel_fst env s p f with heq | heq <;> rw [heq]
  · exact eqLen_enqueue s _ p f h
  · exact eqLen_drain _ _ (eqLen_enqueue s _ p f h)

theorem eqLen_sendPendingParcels (cg : Option Connection) (s : PPState)
    (d : Dest) (h : eqLen s) : eqLen (sendPendingParcels cg s d).1 := by
  rcases sendPendingParcels_fst cg s d with heq | heq <;> rw [heq]
  · exact h
  · exact eqLen_drain s d h

theorem eqLen_foldl (s : PPState) (ops : List QOp) (h : eqLen s) :
    eqLen (List.foldl applyQOp s ops) := by
  induction ops generalizing s with
  | nil => exact h
  | cons op rest ih =>
      refine ih (applyQOp s op) ?_
      cases op with
      | send env p f => exact eqLen_sendParcel env s p f h
      | drain cg d => exact eqLen_sendPendingParcels cg s d h

/-- C4: the pending-parcel queue invariant — starting from the empty map
and after any sequence of `send_parcel` and `send_pending_parcels` calls
(each enqueue appends to both vectors under one critical section, each
drain swaps both out under one critical section), every destination's
parcel vector and handler vector have equal length. -/
theorem pending_queue_sequences_equal_length (ops : List QOp) :
    eqLen (List.foldl applyQOp initPP ops) :=
  eqLen_foldl initPP ops (fun _ => rfl)

theorem callForEach_eq_map (hs : List Handler) (e : ECode) (n : Nat) :
    callForEach hs e n = hs.map (fun f => (f, e, n)) := by
  induction hs with
  | nil => rfl
  | cons f fs ih => simp [callForEach, ih]

theorem drainAndWrite_sentBatch (s : PPState) (d : Dest)
    (conn conn2 : Connection) (ps : List Parcel) (hs : List Handler)
    (h : (drainAndWrite s d conn).2.1 = SendOutcome.sentBatch conn2 ps hs) :
    ps = (s.queue d).1 ∧ hs = (s.queue d).2 := by
  unfold drainAndWrite at h
  dsimp only at h
  split at h
  · simp only [SendOutcome.sentBatch.injEq] at h
    exact ⟨h.2.1.symm, h.2.2.symm⟩
  · simp at h

theorem sentBatch_inv (env : SendEnv) (s : PPState) (p : Parcel) (f : Handler)
    (conn : Connection) (ps : List Parcel) (hs : List Handler)
    (hout : (sendParcel env s p f).2.1 = SendOutcome.sentBatch conn ps hs) :
    ps = (s.queue p.destPfx).1 ++ [p] ∧ hs = (s.queue p.destPfx).2 ++ [f] := by
  have hq : ps = ((enqueuePending s p.destPfx p f).queue p.destPfx).1 ∧
      hs = ((enqueuePending s p.destPfx p f).queue p.destPfx).2 := by
    unfold sendParcel at hout
    cases hc : env.cacheGetResult with
    | none =>
        simp only [hc] at hout
        cases hfull : env.cacheFull with
        | true => simp only [hfull] at hout; simp at hout
        | false =>
            simp only [hfull, Bool.false_eq_true, if_false] at hout
            by_cases he : runRetries ECode.tryAgain env.connectSweeps = ECode.success
            · rw [if_pos he] at hout
              exact drainAndWrite_sentBatch _ _ _ _ _ _ hout
            · rw [if_neg he] at hout
              simp at hout
    | some conn2 =>
        simp only [hc] at hout
        exact drainAndWrite_sentBatch _ _ _ _ _ _ hout
  refine ⟨?_, ?_⟩
  · rw [hq.1]; simp [enqueuePending]
  · rw [hq.2]; simp [enqueuePending]

/-- C5: when a `send_parcel` call drains a batch and hands it to a
connection, the drained handler vector is exactly the submission-ordered
handler sequence for that destination, and the batched write's completion
callback `call_for_each` invokes every drained handler exactly once, in
that order, each with the same error code and byte count the write
completed with. -/
theorem callForEach_batch_handlers_in_order
    (env : SendEnv) (s : PPState) (p : Parcel) (f : Handler)
    (conn : Connection) (ps : List Parcel) (hs : List Handler)
    (hout : (sendParcel env s p f).2.1 = SendOutcome.sentBatch conn ps hs)
    (e : ECode) (n : Nat) :
    hs = (s.queue p.destPfx).2 ++ [f] ∧
    (callForEach hs e n).map Prod.fst = hs ∧
    (callForEach hs e n).length = hs.length ∧
    (∀ x ∈ callForEach hs e n, x.2.1 = e ∧ x.2.2 = n) := by
  refine ⟨(sentBatch_inv env s p f conn ps hs hout).2, ?_, ?_, ?_⟩
  · rw [callForEach_eq_map, List.map_map]
    exact List.map_id hs
  · rw [callForEach_eq_map]
    simp
  · intro x hx
    rw [callForEach_eq_map] at hx
    simp only [List.mem_map] at hx
    obtain ⟨g, _, hg⟩ := hx
    rw [← hg]
    exact ⟨rfl, rfl⟩

/-- Witness for C5: a concrete send over a cached connection drains the
batch `([pw], [7])` and `call_for_each` fires the single handler with the
write's error code and byte count. -/
theorem callForEach_batch_handlers_in_order_witness :
    (sendParcel envC initPP pw 7).2.1 =
      SendOutcome.sentBatch ⟨5⟩ [pw] [7] ∧
    (callForEach [7] (ECode.other 3) 42).map Prod.fst = [7] ∧
    (∀ x ∈ callForEach [7] (ECode.other 3) 42, x.2.1 = ECode.other 3 ∧ x.2.2 = 42) := by
  have h1 : (sendParcel envC initPP pw 7).2.1 =
      SendOutcome.sentBatch ⟨5⟩ [pw] [7] := by decide
  have h := callForEach_batch_handlers_in_order envC initPP pw 7 ⟨5⟩ [pw] [7]
    h1 (ECode.other 3) 42
  exact ⟨h1, h.2.1, h.2.2.2⟩

/-- C9 (counterexample): a read completing with end-of-stream is not a
successful read, yet `handle_read_completion` records the receive timing
telemetry data point for it — telemetry is not recorded "only for
successful reads". -/
theorem handleRead_eof_telemetry_counterexample :
    ECode.eofE ≠ ECode.success ∧
    (handleReadCompletion ECode.eofE).telemetryRecorded = true ∧
    (handleReadCompletion ECode.eofE).loggedError = false := by
  decide

/-- C9 (amended): `handle_read_completion` records the receive timing
telemetry data point exactly when the read completed successfully or with
operation-aborted (expected cancellation) or end-of-stream; any other error
is only logged, with no telemetry data point recorded for that
completion. -/
theorem handleRead_telemetry_iff (e : ECode) :
    ((handleReadCompletion e).telemetryRecorded = true ↔
      (e = ECode.success ∨ e = ECode.operationAborted ∨ e = ECode.eofE)) ∧
    ((handleReadCompletion e).loggedError = true ↔
      ¬ (e = ECode.success ∨ e = ECode.operationAborted ∨ e = ECode.eofE)) := by
  unfold handleReadCompletion
  split <;> rename_i h <;> simp <;> tauto

/-- The same-vtable fast path of `assign` leaves the container state
(vtable, object pointer, allocation bookkeeping) unchanged: the payload is
destroyed and reconstructed in the very same buffer. -/
theorem assignFB_same_vtable (s : FB) (f : CallableArg)
    (hvt : argVt f = s.vptr) (hnull : f.isNullFnPtr = false) :
    assignFB s f = s := by
  unfold assignFB
  rw [hnull]
  simp [← hvt]

/-- C2 (Scenario C): one iteration of `coroutine_impl::operator()` restores
the thread-local "current context" marker to exactly its pre-entry value on
every exit path; and when the bound work item throws, the exception is
captured into the opaque `tinfo` payload, `bind_result` is skipped, and
`do_return` delivers the terminal status `ctx_exited_abnormally` together
with that captured error to the resumer. -/
theorem coroutine_throw_captured_and_self_restored
    (tls : SelfPtr) (selfAddr : Nat) (fn : SelfPtr → Except Nat FnResult) :
    (coroutineIteration tls selfAddr fn).tlsAfter = tls ∧
    (∀ e, fn (some selfAddr) = Except.error e →
      (coroutineIteration tls selfAddr fn).status = ExitStatus.exitedAbnormally ∧
      (coroutineIteration tls selfAddr fn).tinfo = some e ∧
      (coroutineIteration tls selfAddr fn).boundResult = none) := by
  unfold coroutineIteration resetSelfEnter resetSelfExit
  dsimp only
  cases h : fn (some selfAddr) with
  | ok r => exact ⟨rfl, fun e he => nomatch he⟩
  | error e0 =>
      refine ⟨rfl, fun e he => ?_⟩
      cases he
      exact ⟨rfl, rfl, rfl⟩

/-- Witness for C2: a work item throwing payload 13 inside a context entered
while the marker pointed at context 2. -/
theorem coroutine_throw_captured_and_self_restored_witness :
    throwingFn (some 5) = Except.error 13 ∧
    (coroutineIteration (some 2) 5 throwingFn).tlsAfter = some 2 ∧
    (coroutineIteration (some 2) 5 throwingFn).status = ExitStatus.exitedAbnormally ∧
    (coroutineIteration (some 2) 5 throwingFn).tinfo = some 13 := by
  have h := coroutine_throw_captured_and_self_restored (some 2) 5 throwingFn
  have h13 := h.2 13 rfl
  exact ⟨rfl, h.1, h13.1, h13.2.1⟩

/-- C3 (counterexample): `cexFB` is a non-empty container holding a
(non-null) function pointer of decayed type 7, and `cexArg` is a null
function pointer of that very type, so its dispatch table equals the stored
one — yet `assign` resets the container instead of reconstructing in the
same storage: the object pointer changes (to null), refuting the claim as
stated. -/
theorem assign_same_vtable_null_counterexample :
    cexFB.object ≠ none ∧
    argVt cexArg = cexFB.vptr ∧
    (assignFB cexFB cexArg).object ≠ cexFB.object ∧
    (assignFB cexFB cexArg).object = none := by
  decide

/-- C3 (amended): for a non-empty container and an `assign(f)` whose decayed
type's dispatch table equals the stored one, provided `f` is not a null
function/member pointer (nulls are normalized to `reset`), the payload is
destroyed and reconstructed in the same storage: the object pointer is
identical, no allocation happens and the vtable is unchanged; hence any
sequence of such same-typed non-null assigns preserves storage pointer
identity. -/
theorem assign_same_vtable_reuses_storage (s : FB) (f : CallableArg)
    (hne : s.object ≠ none) (hvt : argVt f = s.vptr)
    (hnull : f.isNullFnPtr = false) :
    (assignFB s f).object = s.object ∧
    (assignFB s f).allocCount = s.allocCount ∧
    (assignFB s f).vptr = s.vptr ∧
    (∀ fs : List CallableArg,
      (∀ g ∈ fs, argVt g = s.vptr ∧ g.isNullFnPtr = false) →
      (List.foldl assignFB s fs).object = s.object) := by
  have h1 := assignFB_same_vtable s f hvt hnull
  refine ⟨by rw [h1], by rw [h1], by rw [h1], ?_⟩
  intro fs hfs
  induction fs with
  | nil => rfl
  | cons g gs ih =>
      have hg := hfs g (by simp)
      have hgeq := assignFB_same_vtable s g hg.1 hg.2
      simp only [List.foldl_cons, hgeq]
      exact ih (fun x hx => hfs x (by simp [hx]))

/-- Witness for C3 (amended): reassigning `cexFB` a non-null callable of
the same decayed type 7 keeps the object pointer. -/
theorem assign_same_vtable_reuses_storage_witness :
    cexFB.object ≠ none ∧
    argVt ⟨7, true, false⟩ = cexFB.vptr ∧
    (assignFB cexFB ⟨7, true, false⟩).object = cexFB.object ∧
    (assignFB cexFB ⟨7, true, false⟩).allocCount = cexFB.allocCount := by
  have h := assign_same_vtable_reuses_storage cexFB ⟨7, true, false⟩
    (by decide) (by decide) rfl
  exact ⟨by decide, by decide, h.1, h.2.1⟩

/-- C6: `basic_function::load` resets the container first; when the archive
flag says non-empty and the type name read from the archive is not in the
process-wide registry, the call fails with `UnknownCallableType` and the
container is left exactly in the reset (empty, sentinel-vtable) state. -/
theorem load_unknown_type_fails_empty
    (reg : List (String × SerializableVt)) (s : FB) (ar : InArchive)
    (hne : ar.isEmptyFlag = false)
    (habs : registryLookup reg ar.name = none) :
    loadFB reg s ar = (resetFB s, some (LoadError.unknownCallableType ar.name)) ∧
    (loadFB reg s ar).1.object = none ∧
    (loadFB reg s ar).1.vptr = VTablePtr.emptyVt ∧
    emptyFB (loadFB reg s ar).1 = true := by
  have key : loadFB reg s ar =
      (resetFB s, some (LoadError.unknownCallableType ar.name)) := by
    unfold loadFB
    rw [hne, habs]
    simp
  refine ⟨key, ?_, ?_, ?_⟩ <;> rw [key] <;> rfl

/-- Witness for C6: loading the name `"missing_ty"` from a registry that
only knows `"registered_ty"` fails and leaves the container empty. -/
theorem load_unknown_type_fails_empty_witness :
    arW.isEmptyFlag = false ∧
    registryLookup regW arW.name = none ∧
    loadFB regW cexFB arW =
      (resetFB cexFB, some (LoadError.unknownCallableType "missing_ty")) ∧
    (loadFB regW cexFB arW).1.object = none := by
  have h := load_unknown_type_fails_empty regW cexFB arW rfl (by decide)
  exact ⟨rfl, by decide, h.1, h.2.1⟩

theorem registryLookup_mem (reg : List (String × SerializableVt))
    (name : String) (sv : SerializableVt)
    (h : registryLookup reg name = some sv) :
    ∃ k, (k, sv) ∈ reg := by
  induction reg with
  | nil => cases h
  | cons kv rest ih =>
      unfold registryLookup at h
      by_cases hk : kv.1 = name
      · rw [if_pos hk] at h
        cases h
        exact ⟨kv.1, by simp⟩
      · rw [if_neg hk] at h
        obtain ⟨k, hmem⟩ := ih h
        exact ⟨k, by simp [hmem]⟩

/-- C7: the container invariant — the dispatch-table pointer is never null,
and in the empty state (`object = nullptr`, which is exactly `empty()`) it
is the fixed shared empty-function sentinel — holds for a
default-constructed container and is preserved by every operation:
`reset`, `assign`, copy/move construction, copy/move assignment, `swap`,
and `load` (against a registry of real, non-null vtables).  A moved-from
container is left empty with the sentinel installed. -/
theorem function_base_invariant_preserved :
    (∀ a, fbInv (initFB a)) ∧
    (∀ s, fbInv s → fbInv (resetFB s)) ∧
    (∀ s f, fbInv s → fbInv (assignFB s f)) ∧
    (∀ s a2, fbInv s → fbInv (copyCtorFB s a2)) ∧
    (∀ s a2, fbInv s →
      fbInv (moveCtorFB s a2).1 ∧ fbInv (moveCtorFB s a2).2 ∧
      (moveCtorFB s a2).2.object = none ∧
      (moveCtorFB s a2).2.vptr = VTablePtr.emptyVt) ∧
    (∀ s t, fbInv s → fbInv t → fbInv (copyAssignFB s t)) ∧
    (∀ s t, fbInv s → fbInv t →
      fbInv (moveAssignFB s t).1 ∧ fbInv (moveAssignFB s t).2 ∧
      (moveAssignFB s t).2.object = none ∧
      (moveAssignFB s t).2.vptr = VTablePtr.emptyVt) ∧
    (∀ s t, fbInv s → fbInv t → fbInv (swapFB s t).1 ∧ fbInv (swapFB s t).2) ∧
    (∀ reg s ar, regWellFormed reg → fbInv s → fbInv (loadFB reg s ar).1) := by
  have hinit : ∀ a, fbInv (initFB a) := by
    intro a
    exact ⟨by simp [initFB], fun _ => rfl⟩
  have hreset : ∀ s, fbInv (resetFB s) := by
    intro s
    exact ⟨by simp [resetFB, destroyFB], fun _ => rfl⟩
  have hswap : ∀ s t, fbInv s → fbInv t →
      fbInv (swapFB s t).1 ∧ fbInv (swapFB s t).2 := by
    intro s t hs ht
    constructor
    · refine ⟨ht.1, ?_⟩
      intro hobj
      simp only [swapFB] at hobj ⊢
      split at hobj
      · cases hobj
      · rename_i hti
        exact ht.2 (by simpa using hobj)
    · refine ⟨hs.1, ?_⟩
      intro hobj
      simp only [swapFB] at hobj ⊢
      split at hobj
      · cases hobj
      · rename_i hsi
        exact hs.2 (by simpa using hobj)
  refine ⟨hinit, fun s _ => hreset s, ?_, ?_, ?_, ?_, ?_, hswap, ?_⟩
  · -- assign
    intro s f hs
    unfold assignFB
    by_cases hnull : f.isNullFnPtr = true
    · simp only [hnull]
      simpa using hreset s
    · rw [Bool.not_eq_true] at hnull
      rw [hnull]
      simp only [Bool.false_eq_true, not_false_eq_true, if_true]
      by_cases hvt : s.vptr = argVt f
      · rw [if_pos hvt]; exact hs
      · rw [if_neg hvt]
        unfold allocateFB argVt
        cases hfits : f.fits <;>
          exact ⟨by simp [argVt], fun hobj => by simp at hobj⟩
  · -- copy constructor
    intro s a2 hs
    unfold copyCtorFB
    cases hobj : s.object with
    | none => exact ⟨hs.1, fun _ => hs.2 hobj⟩
    | some addr =>
        cases hv : s.vptr with
        | nullPtr => exact absurd hv hs.1
        | emptyVt =>
            unfold allocateFB
            exact ⟨by simp, fun h => by simp at h⟩
        | typeVt ty fits =>
            unfold allocateFB
            cases fits <;> exact ⟨by simp [hv], fun h => by simp at h⟩
  · -- move constructor
    intro s a2 hs
    refine ⟨?_, ⟨by simp [moveCtorFB], fun _ => rfl⟩, rfl, rfl⟩
    refine ⟨hs.1, ?_⟩
    intro hobj
    simp only [moveCtorFB] at hobj ⊢
    split at hobj
    · cases hobj
    · exact hs.2 hobj
  · -- copy assignment
    intro s t hs ht
    unfold copyAssignFB
    by_cases hvt : s.vptr = t.vptr
    · rw [if_pos hvt]; exact hs
    · rw [if_neg hvt]
      cases hobj : t.object with
      | none => exact ⟨ht.1, fun _ => ht.2 hobj⟩
      | some addr =>
          cases hv : t.vptr with
          | nullPtr => exact absurd hv ht.1
          | emptyVt =>
              unfold allocateFB
              exact ⟨by simp, fun h => by simp at h⟩
          | typeVt ty fits =>
              unfold allocateFB
              cases fits <;> exact ⟨by simp [hv], fun h => by simp at h⟩
  · -- move assignment: swap with the source, then reset the source
    intro s t hs ht
    have h1 := hswap s t hs ht
    exact ⟨h1.1, hreset _, rfl, rfl⟩
  · -- load
    intro reg s ar hreg hs
    unfold loadFB
    by_cases hflag : ar.isEmptyFlag = true
    · rw [if_pos hflag]; exact hreset s
    · rw [Bool.not_eq_true] at hflag
      rw [hflag]
      simp only [Bool.false_eq_true, if_false]
      cases hlk : registryLookup reg ar.name with
      | none => exact hreset s
      | some sv =>
          obtain ⟨k, hmem⟩ := registryLookup_mem reg ar.name sv hlk
          have hnn : sv.vptr ≠ VTablePtr.nullPtr := hreg (k, sv) hmem
          dsimp only
          unfold allocateFB
          refine ⟨?_, fun h => by simp at h⟩
          split <;> simpa using hnn

/-- Witness for C7: the invariant holds for a fresh container and is kept by
a concrete assign and a concrete move-from. -/
theorem function_base_invariant_preserved_witness :
    fbInv (initFB 0) ∧
    fbInv (assignFB (initFB 0) ⟨7, true, false⟩) ∧
    fbInv (moveCtorFB cexFB 200).2 ∧
    (moveCtorFB cexFB 200).2.object = none ∧
    (moveCtorFB cexFB 200).2.vptr = VTablePtr.emptyVt := by
  have h := function_base_invariant_preserved
  have hc : fbInv cexFB := h.2.2.1 (initFB 100) ⟨7, true, false⟩ (h.1 100)
  have hm := h.2.2.2.2.1 cexFB 200 hc
  exact ⟨h.1 0, h.2.2.1 (initFB 0) ⟨7, true, false⟩ (h.1 0),
    hm.2.1, hm.2.2.1, hm.2.2.2⟩

end HpxModel
